import Mathlib

/-!  Shallow embedding of the fin-space storage rebalancer.

Filesystem paths are lists of segments (the source builds paths with
`path.join`/template slashes; segment lists avoid string surgery).  A
directory tree is a flat list of nodes; `readdir`, `stat`, the recursive
size computation and recursive deletion are computed from that list.
External boundaries (the `df` free-space probe, the `rclone` copy tool,
the announce log) enter as explicit environment parameters.  Awaited
effects are sequenced exactly as the source sequences them; a thrown
exception surfaces as `none` / `Except.error` at the point where the
source catches it (or as an overall `none` where nothing catches it).
Numbers: modification times are integer milliseconds, sizes are bytes
(`Nat`), free space is the integer gigabyte count produced by `parseInt`.
The JavaScript size/buffer comparisons divide a byte count by a power of
two (exact in float64 at the magnitudes involved) and compare against
`free` minus nothing; with the integer-valued buffer these comparisons
are replaced by exactly equivalent integer comparisons scaled by that
power of two, keeping every definition kernel-computable:
`free < size / k + buffer  ↔  (free - buffer) * k < size`.
-/

/-- one entry of `fs.readdir(p, { withFileTypes: true })` -/
structure DirEntry where
  name : String
  isDir : Bool
deriving DecidableEq, Repr

/-- one filesystem node; `size` is the byte size of a regular file (0 for
directories, which contribute nothing of their own to recursive sums) -/
structure FsNode where
  path : List String
  isDir : Bool
  mtimeMs : Int
  size : Nat
deriving DecidableEq, Repr

/-- a filesystem snapshot: the flat list of all nodes -/
structure FS where
  nodes : List FsNode
deriving DecidableEq, Repr

/-- a configured storage location (`{path, device, section, dated}` in
config.json); the `section` field is renamed `sect` (Lean keyword) -/
structure DiskSection where
  path : List String
  device : String
  sect : String
  dated : Bool
deriving DecidableEq, Repr

/-- `fs.readdir(p, { withFileTypes: true })`: the immediate children of a
directory node, in node-list order; `none` is the thrown error for a
missing path or a non-directory -/
def readdirFs (fs : FS) (p : List String) : Option (List DirEntry) :=
  if fs.nodes.any (fun n => n.path == p && n.isDir) then
    some ((fs.nodes.filter (fun n => n.path.length == p.length + 1 && p.isPrefixOf n.path)).map
      (fun n => ⟨n.path.getLastD "", n.isDir⟩))
  else none

/-- `fs.stat(p).mtime` in milliseconds; `none` is the thrown error -/
def statFs (fs : FS) (p : List String) : Option Int :=
  (fs.nodes.find? (fun n => n.path == p)).map (fun n => n.mtimeMs)

/-- `getDirectorySize` (utils): recursive sum of regular-file sizes below
`p`; per-entry errors contribute 0, so the function is total -/
def getDirectorySize (fs : FS) (p : List String) : Nat :=
  ((fs.nodes.filter (fun n => !n.isDir && p.isPrefixOf n.path && n.path != p)).map
    (fun n => n.size)).sum

/-- `deleteDirectory` (utils): recursive removal of `p`; it starts with
`readdir(p)`, so a missing or non-directory path throws (`none`), and on
success every node at or below `p` is gone -/
def deleteDirectory (fs : FS) (p : List String) : Option FS :=
  match readdirFs fs p with
  | none => none
  | some _ => some ⟨fs.nodes.filter (fun n => !(p.isPrefixOf n.path))⟩

/-- `isDirectoryEmpty` (utils): zero entries; a readdir error yields
`false`, not a throw -/
def isDirectoryEmpty (fs : FS) (p : List String) : Bool :=
  match readdirFs fs p with
  | some entries => entries.isEmpty
  | none => false

/-- `isOlderThanOneDay` (utils): `now - stats.mtimeMs > 24*60*60*1000`;
a stat error yields `false` -/
def isOlderThanOneDay (now : Int) (fs : FS) (p : List String) : Bool :=
  match statFs fs p with
  | some m => decide (now - m > 86400000)
  | none => false

/-- `wipeDestination` (rclone module): `rm -rf base/name`, removing the
subtree if present; succeeds also when nothing is there -/
def wipeDestination (fs : FS) (base : List String) (name : String) : FS :=
  ⟨fs.nodes.filter (fun n => !((base ++ [name]).isPrefixOf n.path))⟩

/-- `setTimestamp` (rclone module): `touch -d @ts` on an existing path,
setting its modification time to `ts` seconds -/
def setTimestampFs (fs : FS) (p : List String) (ts : Int) : FS :=
  ⟨fs.nodes.map (fun n => if n.path == p then { n with mtimeMs := ts * 1000 } else n)⟩

/-- `verifyFileCount` (rclone module): shallow top-level entry-count
comparison; any readdir error yields `false` rather than a throw -/
def verifyFileCount (fs : FS) (source destination : List String) : Bool :=
  match readdirFs fs source, readdirFs fs destination with
  | some sourceFiles, some destFiles => sourceFiles.length == destFiles.length
  | _, _ => false

/-- a scan result (`{path, name, mtime, size, section}` in
`findOldestDirectory`) -/
structure Release where
  path : List String
  name : String
  mtime : Int
  size : Nat
  sect : String
deriving DecidableEq, Repr

/-- the strictly-older-wins comparison used both for the per-section
`sort`+`[0]` and for the global minimum update (`new Date(a) < new Date(b)`
replaces only on strictly smaller mtime, so the first seen wins ties) -/
def combineOldest : Option Release → Option Release → Option Release
  | none, b => b
  | some a, none => some a
  | some a, some b => if b.mtime < a.mtime then some b else some a

/-- the head of the list after a stable ascending sort by mtime: the first
element attaining the minimum mtime -/
def oldestByMtime : List Release → Option Release
  | [] => none
  | d :: l => combineOldest (some d) (oldestByMtime l)

/-- the `validDirectories` list of one section inside `findOldestDirectory`:
immediate subdirectories with a successful stat, dropping (when the
section's `dated` flag is set) those not older than one day; a section
whose readdir fails contributes nothing -/
def sectionCandidates (now : Int) (fs : FS) (s : DiskSection) : List Release :=
  match readdirFs fs s.path with
  | none => []
  | some entries =>
    (entries.filter (fun e => e.isDir)).filterMap (fun e =>
      match statFs fs (s.path ++ [e.name]) with
      | none => none
      | some m =>
        if s.dated && !(isOlderThanOneDay now fs (s.path ++ [e.name])) then none
        else some ⟨s.path ++ [e.name], e.name, m, getDirectorySize fs (s.path ++ [e.name]), s.sect⟩)

/-- `findOldestDirectory` (utils), also `getOldestIncomingRelease` and
`getOldestArchiveRelease`: fold the per-section oldest candidates into the
global oldest, replacing only on strictly smaller mtime -/
def findOldestDirectory (now : Int) (fs : FS) (sections : List DiskSection) : Option Release :=
  sections.foldl (fun g s => combineOldest g (oldestByMtime (sectionCandidates now fs s))) none

/-- every eligible candidate of every section, in scan order -/
def allCandidates (now : Int) (fs : FS) (sections : List DiskSection) : List Release :=
  sections.flatMap (sectionCandidates now fs)

/-- the `/^\d+$/` test of `getIncomingReleases`; `findOldestDirectory`
never applies it -/
def isNumericName (s : String) : Bool :=
  s.length != 0 && s.toList.all (fun c => c.isDigit)

/-- result of one `exec` call: exit error flag, stdout, stderr -/
structure ExecResult where
  err : Bool
  stdout : String
  stderr : String
deriving DecidableEq, Repr

/-- JavaScript `str.split(/\s+/)`: pieces between maximal whitespace runs,
keeping an empty piece at a boundary run -/
def splitWsJs (s : String) : List String :=
  (s.toList.foldr (fun c st =>
    if c.isWhitespace then
      (true, if st.1 then st.2 else "" :: st.2)
    else
      ((false : Bool), match st.2 with
        | [] => [c.toString]
        | piece :: rest => (c.toString ++ piece) :: rest))
    ((false, [""]) : Bool × List String)).2

/-- removal of the first `G` of a character list -/
def goReplaceG : List Char → List Char
  | [] => []
  | c :: cs => if c = 'G' then cs else c :: goReplaceG cs

/-- JavaScript `str.replace('G', '')`: remove the first `G` only -/
def replaceFirstG (s : String) : String :=
  String.mk (goReplaceG s.toList)

/-- JavaScript `str.trim()`: strip whitespace from both ends -/
def trimJs (s : String) : String :=
  String.mk (((s.toList.dropWhile (fun c => c.isWhitespace)).reverse.dropWhile
    (fun c => c.isWhitespace)).reverse)

/-- JavaScript `str.split(c)` for a single-character separator: every
occurrence splits, boundary and adjacent separators yield empty pieces -/
def splitCharJs (delim : Char) (s : String) : List String :=
  s.toList.foldr (fun c pieces => match pieces with
    | [] => [c.toString]
    | p :: ps => if c = delim then "" :: p :: ps else (c.toString ++ p) :: ps) [""]

/-- the digit run at the head of the character list, as a number; `none`
when there is no digit (this is `parseInt`'s NaN) -/
def leadingDigitsVal (cs : List Char) : Option Nat :=
  let ds := cs.takeWhile (fun c => c.isDigit)
  if ds.isEmpty then none
  else some (ds.foldl (fun a c => 10 * a + (c.toNat - '0'.toNat)) 0)

/-- JavaScript `parseInt(s, 10)`: skip leading whitespace, optional sign,
then the leading digit run; `none` models NaN -/
def parseIntJS (s : String) : Option Int :=
  match s.toList.dropWhile (fun c => c.isWhitespace) with
  | '-' :: rest => (leadingDigitsVal rest).map (fun n => -(n : Int))
  | '+' :: rest => (leadingDigitsVal rest).map (fun n => (n : Int))
  | cs => (leadingDigitsVal cs).map (fun n => (n : Int))

/-- `getFreeSpace` (disk module): run `df -BG device`, reject on exec
error, stderr output or fewer than two lines, then resolve
`parseInt(fields[3].replace('G',''), 10)` of the second line; a missing
fourth field throws inside the parse block and is caught into a reject,
but a present unparseable field resolves as NaN (`Except.ok none`) -/
def getFreeSpace (r : ExecResult) : Except String (Option Int) :=
  if r.err || r.stderr != "" then
    Except.error "error getting free space"
  else
    match splitCharJs '\n' (trimJs r.stdout) with
    | _ :: line1 :: _ =>
      match (splitWsJs line1)[3]? with
      | none => Except.error "error parsing free space data"
      | some f3 => Except.ok (parseIntJS (replaceFirstG f3))
    | _ => Except.error "unexpected output from df command"

/-- the configuration object (config.json), plus whether `GLLogFile` is
set (the announce writer skips silently when it is absent) -/
structure Config where
  incomingDisksSections : List DiskSection
  archiveDisksSections : List DiskSection
  freeSpaceLimitGBRace : Int
  freeSpaceLimitGBArchive : Int
  archiveBufferGB : Int
  debug : Bool
  hasGLLogFile : Bool

/-- an observable mutating effect, in execution order -/
inductive Act where
  | wipe (base : List String) (name : String)
  | copy (src : List String) (name : String) (dst : List String)
  | setTs (p : List String) (ts : Int)
  | deleteDir (p : List String)
  | announce (tag : String)
deriving DecidableEq, Repr

/-- the external world: the free-space probe (a function of the current
filesystem and the device), the rclone copy tool's effect on the
filesystem (`none` = the copy command threw), and the current time -/
structure Env where
  probe : FS → String → Option Int
  rclone : FS → List String → String → List String → Option FS
  now : Int

/-- `proc_announce`: appends one line to the announce log unless the log
path is unset or debug mode is on (the formatted line is abstracted to its
action tag) -/
def procAnnounce (cfg : Config) (tag : String) : List Act :=
  if !cfg.hasGLLogFile || cfg.debug then [] else [Act.announce tag]

/-- `manageArchive` step 1: resolve the incoming section whose
`path/name` equals the release's path -/
def findIncomingSection (cfg : Config) (rel : Release) : Option DiskSection :=
  cfg.incomingDisksSections.find? (fun s => rel.path == s.path ++ [rel.name])

/-- `manageArchive` step 2: the archive sections sharing the release's
category label -/
def matchingArchiveSections (cfg : Config) (lbl : String) : List DiskSection :=
  cfg.archiveDisksSections.filter (fun s => s.sect == lbl)

/-- the `manageArchive` selection loop: start with no best section and
`mostFreeSpace = 0`, probe every archive section's device (probe errors
are caught and skipped), adopt on strictly greater free space -/
def selectBestLoop (probe : String → Option Int) :
    List DiskSection → Option DiskSection → Int → Option DiskSection × Int
  | [], best, most => (best, most)
  | s :: rest, best, most =>
    match probe s.device with
    | none => selectBestLoop probe rest best most
    | some v => if v > most then selectBestLoop probe rest (some s) v
                else selectBestLoop probe rest best most

/-- the selection loop from its initial accumulator -/
def selectBest (probe : String → Option Int) (sections : List DiskSection) :
    Option DiskSection × Int :=
  selectBestLoop probe sections none 0

/-- `manageArchive` with a concrete release: resolve the incoming section,
require a label-matching archive section to exist, pick the globally
most-free archive device, require `mostFreeSpace ≥ size/1024 + buffer`
(the source divides the byte size by 1024 only; the comparison is the
scaled integer equivalent), then wipe the
destination, copy, verify counts, restore the source timestamp on the
destination and delete the source; every early exit returns `false` with
the effects performed so far -/
def manageArchiveRel (cfg : Config) (env : Env) (fs : FS) (rel : Release) :
    Bool × FS × List Act :=
  match findIncomingSection cfg rel with
  | none => (false, fs, [])
  | some incomingSection =>
    if (matchingArchiveSections cfg incomingSection.sect).length == 0 then (false, fs, [])
    else
      match selectBest (env.probe fs) cfg.archiveDisksSections with
      | (none, _) => (false, fs, [])
      | (some bestSection, mostFreeSpace) =>
        if (mostFreeSpace - cfg.archiveBufferGB) * 1024 < (rel.size : Int) then
          (false, fs, [])
        else if cfg.debug then (true, fs, [])
        else
          let sourcePath := incomingSection.path
          let sourceName := rel.name
          let destinationPath := bestSection.path
          let fs1 := wipeDestination fs destinationPath sourceName
          match env.rclone fs1 sourcePath sourceName destinationPath with
          | none => (false, fs1, [Act.wipe destinationPath sourceName])
          | some fs2 =>
            let tr := [Act.wipe destinationPath sourceName,
                       Act.copy sourcePath sourceName destinationPath]
            if verifyFileCount fs2 (sourcePath ++ [sourceName])
                (destinationPath ++ [sourceName]) then
              match statFs fs2 (sourcePath ++ [sourceName]) with
              | none => (false, fs2, tr)
              | some m =>
                let ts := Int.fdiv m 1000
                let fs3 := setTimestampFs fs2 (destinationPath ++ [sourceName]) ts
                let fs4 := wipeDestination fs3 sourcePath sourceName
                (true, fs4, tr ++ [Act.setTs (destinationPath ++ [sourceName]) ts,
                                   Act.wipe sourcePath sourceName])
            else (false, fs2, tr)

/-- outcome of one body execution of the reclaim `while` loop -/
inductive IterRes where
  | brk (fs : FS) (tr : List Act) (didClean : Bool)
  | cont (fs : FS) (free : Int) (tr : List Act) (didClean : Bool)
deriving DecidableEq, Repr

/-- one body execution of the cleanup loop in `manageArchiveDiskSpace`:
find the oldest release on this device's sections; none breaks; otherwise
announce, and (debug off) delete it and re-read free space, breaking on a
caught delete or probe error; with debug on nothing is executed and the
state continues unchanged -/
def cleanupIter (cfg : Config) (env : Env) (device : String)
    (sects : List DiskSection) (fs : FS) (free : Int) : IterRes :=
  match findOldestDirectory env.now fs sects with
  | none => IterRes.brk fs [] false
  | some oldestRelease =>
    let ann := procAnnounce cfg "TDELA"
    if cfg.debug then IterRes.cont fs free ann false
    else
      match deleteDirectory fs oldestRelease.path with
      | none => IterRes.brk fs ann false
      | some fs2 =>
        match env.probe fs2 device with
        | none => IterRes.brk fs2 (ann ++ [Act.deleteDir oldestRelease.path]) false
        | some free2 =>
          IterRes.cont fs2 free2 (ann ++ [Act.deleteDir oldestRelease.path]) true

/-- the `while (freeSpace < config.freeSpaceLimitGBArchive)` loop, with
explicit fuel; `none` means the fuel ran out, which with fuel above the
node count only happens when the loop makes no progress (debug mode) -/
def cleanupLoop (cfg : Config) (env : Env) (device : String) (sects : List DiskSection) :
    Nat → FS → Int → Bool → List Act → Option (Bool × FS × List Act)
  | 0, _, _, _, _ => none
  | fuel + 1, fs, free, flag, acc =>
    if free < cfg.freeSpaceLimitGBArchive then
      match cleanupIter cfg env device sects fs free with
      | IterRes.brk fs2 tr fl => some (flag || fl, fs2, acc ++ tr)
      | IterRes.cont fs2 free2 tr fl =>
        cleanupLoop cfg env device sects fuel fs2 free2 (flag || fl) (acc ++ tr)
    else some (flag, fs, acc)

/-- the `reduce` grouping of archive sections by device, in first-seen
key order with per-device insertion order (string-keyed objects preserve
insertion order) -/
def groupByDevice (sections : List DiskSection) : List (String × List DiskSection) :=
  sections.foldl (fun acc s =>
    if acc.any (fun kv => kv.1 == s.device) then
      acc.map (fun kv => if kv.1 == s.device then (kv.1, kv.2 ++ [s]) else kv)
    else acc ++ [(s.device, [s])]) []

/-- the per-device iteration of `manageArchiveDiskSpace`: probe the device
(an uncaught probe error throws out of the whole call), skip it at or
above the archive threshold, otherwise run the cleanup loop -/
def diskLoop (cfg : Config) (env : Env) :
    List (String × List DiskSection) → FS → Bool → List Act →
    Option (Bool × FS × List Act)
  | [], fs, flag, acc => some (flag, fs, acc)
  | (device, sects) :: rest, fs, flag, acc =>
    match env.probe fs device with
    | none => none
    | some free =>
      if free ≥ cfg.freeSpaceLimitGBArchive then diskLoop cfg env rest fs flag acc
      else
        match cleanupLoop cfg env device sects (fs.nodes.length + 1) fs free flag [] with
        | none => none
        | some (flag2, fs2, tr) => diskLoop cfg env rest fs2 flag2 (acc ++ tr)

/-- `manageArchiveDiskSpace`: group archive sections by device and clean
each device below the archive threshold, returning whether any cleanup
was performed -/
def manageArchiveDiskSpace (cfg : Config) (env : Env) (fs : FS) :
    Option (Bool × FS × List Act) :=
  diskLoop cfg env (groupByDevice cfg.archiveDisksSections) fs false []

/-- `manageArchive`: with no release, delegate to
`manageArchiveSpace`/`manageArchiveDiskSpace` and then return `false`
unconditionally; with a release, run the placement path -/
def manageArchive (cfg : Config) (env : Env) (fs : FS) :
    Option Release → Option (Bool × FS × List Act)
  | some rel => some (manageArchiveRel cfg env fs rel)
  | none =>
    (manageArchiveDiskSpace cfg env fs).map (fun out => (false, out.2.1, out.2.2))

/-- the tail of `manageIncoming` after the empty-directory block: locate a
label-matching archive section; if found, pre-check its own device's free
space against `size/1024/1024 + buffer`, announce `TSM` and (debug off)
call `manageArchive`, discarding its boolean result (the pre-check is
the scaled integer equivalent of `free < size/1024/1024 + buffer`); if
not found,
announce `TSD` and delete the release; either way the re-probed free
space decides an early `return true`, and the fall-through end of the
function also returns `true` -/
def incomingContinue (cfg : Config) (env : Env) (fs : FS) (isec : DiskSection)
    (rel : Release) (acc : List Act) : Option (Bool × FS × List Act) :=
  match cfg.archiveDisksSections.find? (fun a => a.sect == rel.sect) with
  | some archiveSection =>
    match env.probe fs archiveSection.device with
    | none => none
    | some archiveFreeSpace =>
      if (archiveFreeSpace - cfg.archiveBufferGB) * 1048576 < (rel.size : Int) then
        some (false, fs, acc)
      else
        let acc1 := acc ++ procAnnounce cfg "TSM"
        if cfg.debug then some (true, fs, acc1)
        else
          match manageArchiveRel cfg env fs rel with
          | (_, fs2, trA) =>
            match env.probe fs2 isec.device with
            | none => some (false, fs2, acc1 ++ trA)
            | some _ => some (true, fs2, acc1 ++ trA)
  | none =>
    let acc1 := acc ++ procAnnounce cfg "TSD"
    if cfg.debug then some (true, fs, acc1)
    else
      match deleteDirectory fs rel.path with
      | none => some (false, fs, acc1)
      | some fs2 =>
        match env.probe fs2 isec.device with
        | none => some (false, fs2, acc1 ++ [Act.deleteDir rel.path])
        | some _ => some (true, fs2, acc1 ++ [Act.deleteDir rel.path])

/-- `manageIncoming`: probe the section's device (uncaught — an error
throws), stop below-threshold work early, find the globally oldest
incoming release, handle an empty release directory (delete it, re-probe,
early `return true` only at/above threshold, otherwise fall through), then
continue with migration or deletion -/
def manageIncoming (cfg : Config) (env : Env) (fs : FS) (isec : DiskSection) :
    Option (Bool × FS × List Act) :=
  match env.probe fs isec.device with
  | none => none
  | some freeSpace =>
    if freeSpace ≥ cfg.freeSpaceLimitGBRace then some (false, fs, [])
    else
      match findOldestDirectory env.now fs cfg.incomingDisksSections with
      | none => some (false, fs, [])
      | some oldestRelease =>
        if isDirectoryEmpty fs oldestRelease.path then
          if cfg.debug then incomingContinue cfg env fs isec oldestRelease []
          else
            match deleteDirectory fs oldestRelease.path with
            | none => some (false, fs, [])
            | some fs1 =>
              match env.probe fs1 isec.device with
              | none => some (false, fs1, [Act.deleteDir oldestRelease.path])
              | some free1 =>
                if free1 ≥ cfg.freeSpaceLimitGBRace then
                  some (true, fs1, [Act.deleteDir oldestRelease.path])
                else
                  incomingContinue cfg env fs1 isec oldestRelease
                    [Act.deleteDir oldestRelease.path]
        else incomingContinue cfg env fs isec oldestRelease []

/-! ### Lemmas about the oldest-release scan -/

theorem combineOldest_none_right (a : Option Release) : combineOldest a none = a := by
  cases a <;> rfl

theorem combineOldest_assoc (a b c : Option Release) :
    combineOldest (combineOldest a b) c = combineOldest a (combineOldest b c) := by
  cases a with
  | none => rfl
  | some x =>
    cases b with
    | none => rfl
    | some y =>
      cases c with
      | none => rw [combineOldest_none_right, combineOldest_none_right]
      | some z =>
        by_cases h1 : y.mtime < x.mtime <;> by_cases h2 : z.mtime < y.mtime <;>
          simp only [combineOldest, h1, h2, if_true, if_false, if_pos, if_neg,
            not_false_iff] <;>
          split_ifs <;> first | rfl | omega

theorem oldestByMtime_eq_none_iff (l : List Release) : oldestByMtime l = none ↔ l = [] := by
  cases l with
  | nil => simp [oldestByMtime]
  | cons d t =>
    simp only [oldestByMtime]
    constructor
    · intro h
      exfalso
      rcases ht : oldestByMtime t with _ | b
      · rw [ht] at h
        exact Option.noConfusion h
      · rw [ht] at h
        simp only [combineOldest] at h
        split_ifs at h
    · intro h
      exact absurd h (List.cons_ne_nil d t)

theorem oldestByMtime_le {l : List Release} :
    ∀ {r : Release}, oldestByMtime l = some r → ∀ c ∈ l, r.mtime ≤ c.mtime := by
  induction l with
  | nil => intro r h; simp [oldestByMtime] at h
  | cons d t ih =>
    intro r h c hc
    simp only [oldestByMtime] at h
    rcases ht : oldestByMtime t with _ | b <;> rw [ht] at h
    · have hnil := (oldestByMtime_eq_none_iff t).mp ht
      subst hnil
      simp only [combineOldest, Option.some.injEq] at h
      subst h
      rcases List.mem_cons.mp hc with hcd | hcn
      · subst hcd; omega
      · simp at hcn
    · simp only [combineOldest] at h
      split_ifs at h with hlt
      · injection h with h
        subst h
        rcases List.mem_cons.mp hc with hcd | hct
        · subst hcd; omega
        · exact ih ht c hct
      · injection h with h
        subst h
        rcases List.mem_cons.mp hc with hcd | hct
        · subst hcd; omega
        · have := ih ht c hct; omega

theorem oldestByMtime_first {l : List Release} :
    ∀ {r : Release}, oldestByMtime l = some r →
      ∃ l₁ l₂, l = l₁ ++ r :: l₂ ∧ ∀ c ∈ l₁, r.mtime < c.mtime := by
  induction l with
  | nil => intro r h; simp [oldestByMtime] at h
  | cons d t ih =>
    intro r h
    simp only [oldestByMtime] at h
    rcases ht : oldestByMtime t with _ | b <;> rw [ht] at h
    · have hnil := (oldestByMtime_eq_none_iff t).mp ht
      subst hnil
      simp only [combineOldest, Option.some.injEq] at h
      subst h
      exact ⟨[], [], rfl, by simp⟩
    · simp only [combineOldest] at h
      split_ifs at h with hlt
      · injection h with h
        subst h
        obtain ⟨l₁, l₂, heq, hstrict⟩ := ih ht
        refine ⟨d :: l₁, l₂, by simp [heq], ?_⟩
        intro c hc
        rcases List.mem_cons.mp hc with hcd | hcl
        · subst hcd; omega
        · exact hstrict c hcl
      · injection h with h
        subst h
        exact ⟨[], t, rfl, by simp⟩

theorem oldestByMtime_append (l₁ l₂ : List Release) :
    oldestByMtime (l₁ ++ l₂) = combineOldest (oldestByMtime l₁) (oldestByMtime l₂) := by
  induction l₁ with
  | nil => rfl
  | cons d t ih =>
    simp only [List.cons_append, oldestByMtime, List.append_eq, ih, combineOldest_assoc]

theorem findOldestDirectory_eq_oldest (now : Int) (fs : FS) (sections : List DiskSection) :
    findOldestDirectory now fs sections = oldestByMtime (allCandidates now fs sections) := by
  suffices h : ∀ (l : List DiskSection) (g : Option Release),
      l.foldl (fun g s => combineOldest g (oldestByMtime (sectionCandidates now fs s))) g
        = combineOldest g (oldestByMtime (allCandidates now fs l)) by
    simpa [findOldestDirectory] using h sections none
  intro l
  induction l with
  | nil =>
    intro g
    simp [allCandidates, oldestByMtime, combineOldest_none_right]
  | cons s t ih =>
    intro g
    simp only [List.foldl_cons, ih, allCandidates, List.flatMap_cons, oldestByMtime_append,
      combineOldest_assoc]

/-- C6: over any set of sections, the scan returns a release of minimal
modification time across all sections' eligible candidates, the first one
in scan order to attain that minimum (strictly earlier candidates are
strictly younger), and it returns `none` exactly when no section
contributes any eligible candidate (sections that fail to open are
skipped and contribute nothing, so they are not fatal) -/
theorem findOldestDirectory_spec (now : Int) (fs : FS) (sections : List DiskSection) :
    (findOldestDirectory now fs sections = none ↔ allCandidates now fs sections = []) ∧
    ∀ r, findOldestDirectory now fs sections = some r →
      ∃ l₁ l₂, allCandidates now fs sections = l₁ ++ r :: l₂ ∧
        (∀ c ∈ l₁, r.mtime < c.mtime) ∧ (∀ c ∈ l₂, r.mtime ≤ c.mtime) := by
  constructor
  · rw [findOldestDirectory_eq_oldest]
    exact oldestByMtime_eq_none_iff _
  · intro r hr
    rw [findOldestDirectory_eq_oldest] at hr
    obtain ⟨l₁, l₂, heq, hstrict⟩ := oldestByMtime_first hr
    refine ⟨l₁, l₂, heq, hstrict, ?_⟩
    intro c hc
    refine oldestByMtime_le hr c ?_
    rw [heq]
    exact List.mem_append_right _ (List.mem_cons_of_mem _ hc)

/-- two-section scan example: section s1 holds a release modified at
t = 10000 ms, section s2 one modified at t = 5000 ms -/
def fsScan : FS :=
  ⟨[⟨["s1"], true, 0, 0⟩, ⟨["s1", "a"], true, 10000, 0⟩,
    ⟨["s2"], true, 0, 0⟩, ⟨["s2", "b"], true, 5000, 0⟩]⟩

/-- first scan-example section -/
def secScan1 : DiskSection := ⟨["s1"], "d1", "L", false⟩

/-- second scan-example section -/
def secScan2 : DiskSection := ⟨["s2"], "d2", "L", false⟩

/-- the release of the second scan-example section -/
def relScanB : Release := ⟨["s2", "b"], "b", 5000, 0, "L"⟩

/-- C6 witness: on the concrete two-section example the scan picks s2's
release (t = 5000 beats s1's t = 10000) and the characterization holds -/
theorem findOldestDirectory_spec_witness :
    ∃ l₁ l₂, allCandidates 0 fsScan [secScan1, secScan2] = l₁ ++ relScanB :: l₂ ∧
      (∀ c ∈ l₁, relScanB.mtime < c.mtime) ∧ (∀ c ∈ l₂, relScanB.mtime ≤ c.mtime) :=
  (findOldestDirectory_spec 0 fsScan [secScan1, secScan2]).2 relScanB (by decide)

/-- dated-section example: one non-numeric directory name, 25 hours old -/
def fsDated : FS := ⟨[⟨["sec"], true, 0, 0⟩, ⟨["sec", "abc"], true, 0, 0⟩]⟩

/-- a section with the `dated` flag set -/
def secDated : DiskSection := ⟨["sec"], "d", "L", true⟩

/-- C4 counterexample: scanning a `dated` section, `findOldestDirectory`
returns a directory whose name is not purely numeric (at `now` 25 hours
past its mtime), so no numeric-name filter is applied on this path -/
theorem dated_nonNumeric_selected :
    (findOldestDirectory 90000000 fsDated [secDated]).map Release.name = some "abc" ∧
    isNumericName "abc" = false := by
  exact ⟨by decide, by decide⟩

/-- C4 amended: for a `dated` section, a stat-able immediate subdirectory
is an eligible candidate exactly when its modification time is more than
24 hours before `now` — with no condition whatsoever on its name -/
theorem dated_scan_age_only (now : Int) (fs : FS) (s : DiskSection) (entries : List DirEntry)
    (e : DirEntry) (m : Int)
    (hd : s.dated = true)
    (hrd : readdirFs fs s.path = some entries)
    (he : e ∈ entries) (hdir : e.isDir = true)
    (hm : statFs fs (s.path ++ [e.name]) = some m) :
    (∃ r ∈ sectionCandidates now fs s, r.path = s.path ++ [e.name]) ↔
      now - m > 86400000 := by
  have holderEq : isOlderThanOneDay now fs (s.path ++ [e.name])
      = decide (now - m > 86400000) := by
    simp [isOlderThanOneDay, hm]
  constructor
  · rintro ⟨r, hr, hpath⟩
    simp only [sectionCandidates, hrd] at hr
    obtain ⟨a, ha, hfa⟩ := List.mem_filterMap.mp hr
    rcases hstat : statFs fs (s.path ++ [a.name]) with _ | m2 <;> rw [hstat] at hfa <;>
      dsimp only at hfa
    · simp at hfa
    · split_ifs at hfa with hcond
      have hrval := Option.some.inj hfa
      have hpathEq : s.path ++ [a.name] = s.path ++ [e.name] := by
        rw [← hrval] at hpath
        simpa using hpath
      have hname : a.name = e.name := by
        have := List.append_cancel_left hpathEq
        simpa using this
      rw [hname] at hcond
      have holder : isOlderThanOneDay now fs (s.path ++ [e.name]) = true := by
        cases hb : isOlderThanOneDay now fs (s.path ++ [e.name]) with
        | false => exact absurd (by rw [hd, hb]; decide) hcond
        | true => rfl
      exact of_decide_eq_true (holderEq.symm.trans holder)
  · intro hage
    refine ⟨⟨s.path ++ [e.name], e.name, m,
      getDirectorySize fs (s.path ++ [e.name]), s.sect⟩, ?_, rfl⟩
    simp only [sectionCandidates, hrd]
    refine List.mem_filterMap.mpr ⟨e, List.mem_filter.mpr ⟨he, hdir⟩, ?_⟩
    rw [hm, holderEq, decide_eq_true hage]
    simp

/-- df output whose fourth column exists but holds no digits -/
def dfNaN : ExecResult :=
  ⟨false, "Filesystem Size Used Avail Use%\n/dev/sda 100G 50G XG 50% /", ""⟩

/-- df output whose fourth column is a negative number -/
def dfNeg : ExecResult :=
  ⟨false, "Filesystem Size Used Avail Use%\n/dev/sda 100G 50G -5G 50% /", ""⟩

/-- C9 counterexample: with a successful exec and two output lines, a
fourth column without digits is resolved as NaN (`ok none`) instead of
surfacing an error, and a negative fourth column is resolved as a
negative integer — the probe validates neither -/
theorem getFreeSpace_not_validated :
    getFreeSpace dfNaN = Except.ok none ∧ getFreeSpace dfNeg = Except.ok (some (-5)) :=
  ⟨rfl, rfl⟩

/-- C9 amended: the probe rejects on a nonzero exit or stderr output, on
fewer than two trimmed output lines, and on a second line with fewer than
four whitespace-separated fields; in every remaining case it resolves the
raw `parseInt` of the fourth field with its first `G` removed, without
validation (so NaN and negative values pass through, per the
counterexample) -/
theorem getFreeSpace_taxonomy (r : ExecResult) :
    ((r.err = true ∨ r.stderr ≠ "") → ∃ e, getFreeSpace r = Except.error e) ∧
    (∀ l0, splitCharJs '\n' (trimJs r.stdout) = [l0] → ∃ e, getFreeSpace r = Except.error e) ∧
    (∀ l0 l1 rest, splitCharJs '\n' (trimJs r.stdout) = l0 :: l1 :: rest →
      r.err = false → r.stderr = "" →
      (((splitWsJs l1)[3]? = none → ∃ e, getFreeSpace r = Except.error e) ∧
       (∀ f3, (splitWsJs l1)[3]? = some f3 →
          getFreeSpace r = Except.ok (parseIntJS (replaceFirstG f3))))) := by
  refine ⟨?_, ?_, ?_⟩
  · intro h
    have hcond : (r.err || r.stderr != "") = true := by
      rcases h with h | h
      · simp [h]
      · simp [bne_iff_ne, h]
    exact ⟨"error getting free space", by simp [getFreeSpace, hcond]⟩
  · intro l0 hl
    by_cases hcond : (r.err || r.stderr != "") = true
    · exact ⟨"error getting free space", by simp [getFreeSpace, hcond]⟩
    · exact ⟨"unexpected output from df command", by simp [getFreeSpace, hcond, hl]⟩
  · intro l0 l1 rest hl herr hstderr
    have hcond : (r.err || r.stderr != "") = false := by
      simp [herr, hstderr]
    constructor
    · intro hget
      exact ⟨"error parsing free space data", by simp [getFreeSpace, hcond, hl, hget]⟩
    · intro f3 hget
      simp [getFreeSpace, hcond, hl, hget]

/-- well-formed df output example -/
def dfOk : ExecResult :=
  ⟨false, "Filesystem Size Used Avail Use%\n/dev/sda 100G 50G 42G 50% /", ""⟩

/-- C9 amended witness: the well-formed example resolves to 42 GB through
the taxonomy theorem's resolution clause -/
theorem getFreeSpace_taxonomy_witness : getFreeSpace dfOk = Except.ok (some 42) :=
  (((getFreeSpace_taxonomy dfOk).2.2 "Filesystem Size Used Avail Use%"
      "/dev/sda 100G 50G 42G 50% /" [] rfl rfl rfl).2 "42G" rfl).trans rfl

/-- general invariant of the selection loop: either nothing is adopted
(the accumulator survives and every successfully probed value is at most
the running maximum) or the result is the first section whose probe value
exceeds everything before it and is not exceeded after it -/
theorem selectBestLoop_spec (probe : String → Option Int) :
    ∀ (l : List DiskSection) (b0 : Option DiskSection) (m0 : Int),
      (selectBestLoop probe l b0 m0 = (b0, m0) ∧
        ∀ t ∈ l, ∀ v, probe t.device = some v → v ≤ m0) ∨
      (∃ s pre post, (selectBestLoop probe l b0 m0).1 = some s ∧
        l = pre ++ s :: post ∧
        probe s.device = some (selectBestLoop probe l b0 m0).2 ∧
        m0 < (selectBestLoop probe l b0 m0).2 ∧
        (∀ t ∈ pre, ∀ v, probe t.device = some v → v < (selectBestLoop probe l b0 m0).2) ∧
        (∀ t ∈ post, ∀ v, probe t.device = some v → v ≤ (selectBestLoop probe l b0 m0).2)) := by
  intro l
  induction l with
  | nil =>
    intro b0 m0
    exact Or.inl ⟨rfl, by simp⟩
  | cons s rest ih =>
    intro b0 m0
    rcases hp : probe s.device with _ | v
    · rcases ih b0 m0 with ⟨heq, hle⟩ | ⟨s1, pre, post, h1, h2, h3, h4, h5, h6⟩
      · refine Or.inl ⟨by simp [selectBestLoop, hp, heq], ?_⟩
        intro t ht v hv
        rcases List.mem_cons.mp ht with rfl | ht
        · rw [hp] at hv; exact Option.noConfusion hv
        · exact hle t ht v hv
      · have hres : selectBestLoop probe (s :: rest) b0 m0 = selectBestLoop probe rest b0 m0 := by
          simp [selectBestLoop, hp]
        refine Or.inr ⟨s1, s :: pre, post, ?_, ?_, ?_, ?_, ?_, ?_⟩
        · rw [hres]; exact h1
        · rw [h2]; rfl
        · rw [hres]; exact h3
        · rw [hres]; exact h4
        · rw [hres]
          intro t ht v hv
          rcases List.mem_cons.mp ht with rfl | ht
          · rw [hp] at hv; exact Option.noConfusion hv
          · exact h5 t ht v hv
        · rw [hres]; exact h6
    · by_cases hgt : v > m0
      · have hres : selectBestLoop probe (s :: rest) b0 m0
            = selectBestLoop probe rest (some s) v := by
          simp [selectBestLoop, hp, hgt]
        rcases ih (some s) v with ⟨heq, hle⟩ | ⟨s1, pre, post, h1, h2, h3, h4, h5, h6⟩
        · refine Or.inr ⟨s, [], rest, ?_, rfl, ?_, ?_, by simp, ?_⟩ <;> rw [hres, heq]
          · exact hp
          · exact hgt
          · exact hle
        · refine Or.inr ⟨s1, s :: pre, post, ?_, ?_, ?_, ?_, ?_, ?_⟩
          · rw [hres]; exact h1
          · rw [h2]; rfl
          · rw [hres]; exact h3
          · rw [hres]; omega
          · rw [hres]
            intro t ht w hw
            rcases List.mem_cons.mp ht with rfl | ht
            · rw [hp] at hw
              have := Option.some.inj hw
              omega
            · exact h5 t ht w hw
          · rw [hres]; exact h6
      · have hres : selectBestLoop probe (s :: rest) b0 m0
            = selectBestLoop probe rest b0 m0 := by
          simp [selectBestLoop, hp, hgt]
        rcases ih b0 m0 with ⟨heq, hle⟩ | ⟨s1, pre, post, h1, h2, h3, h4, h5, h6⟩
        · refine Or.inl ⟨by rw [hres, heq], ?_⟩
          intro t ht w hw
          rcases List.mem_cons.mp ht with rfl | ht
          · rw [hp] at hw
            have := Option.some.inj hw
            omega
          · exact hle t ht w hw
        · refine Or.inr ⟨s1, s :: pre, post, ?_, ?_, ?_, ?_, ?_, ?_⟩
          · rw [hres]; exact h1
          · rw [h2]; rfl
          · rw [hres]; exact h3
          · rw [hres]; exact h4
          · rw [hres]
            intro t ht w hw
            rcases List.mem_cons.mp ht with rfl | ht
            · rw [hp] at hw
              have := Option.some.inj hw
              omega
            · exact h5 t ht w hw
          · rw [hres]; exact h6

/-- relabelling a section, keeping path, device and dated flag -/
def relabelSect (f : DiskSection → String) (t : DiskSection) : DiskSection :=
  { t with sect := f t }

/-- the selection loop commutes with relabelling, because it only ever
reads the `device` field -/
theorem selectBestLoop_relabel (probe : String → Option Int) (f : DiskSection → String) :
    ∀ (l : List DiskSection) (b0 : Option DiskSection) (m0 : Int),
      selectBestLoop probe (l.map (relabelSect f)) (b0.map (relabelSect f)) m0
        = ((selectBestLoop probe l b0 m0).1.map (relabelSect f),
           (selectBestLoop probe l b0 m0).2) := by
  intro l
  induction l with
  | nil => intro b0 m0; rfl
  | cons s rest ih =>
    intro b0 m0
    rcases hp : probe s.device with _ | v
    · simpa [selectBestLoop, relabelSect, hp] using ih b0 m0
    · by_cases hgt : v > m0
      · simpa [selectBestLoop, relabelSect, hp, hgt] using ih (some s) v
      · simpa [selectBestLoop, relabelSect, hp, hgt] using ih b0 m0

/-- C7: whenever the placement path's device-selection loop yields a
destination, it is the first-seen section (configuration order) among all
configured archive sections whose probed free space attains the positive
maximum — every earlier section's probe fails or is strictly smaller, and
no later probe exceeds it; when it yields none, every probe failed or was
at most zero; the selection commutes with arbitrary relabelling of the
sections (it never reads a label); and when no archive section carries
the release's label, `manageArchive` fails before probing, with no
filesystem effect -/
theorem selectBest_spec :
    (∀ (probe : String → Option Int) (sections : List DiskSection) (s : DiskSection) (m : Int),
      selectBest probe sections = (some s, m) →
      ∃ pre post, sections = pre ++ s :: post ∧ probe s.device = some m ∧ 0 < m ∧
        (∀ t ∈ pre, ∀ v, probe t.device = some v → v < m) ∧
        (∀ t ∈ post, ∀ v, probe t.device = some v → v ≤ m)) ∧
    (∀ (probe : String → Option Int) (sections : List DiskSection) (m : Int),
      selectBest probe sections = (none, m) →
      m = 0 ∧ ∀ t ∈ sections, ∀ v, probe t.device = some v → v ≤ 0) ∧
    (∀ (probe : String → Option Int) (sections : List DiskSection) (f : DiskSection → String),
      selectBest probe (sections.map (relabelSect f))
        = ((selectBest probe sections).1.map (relabelSect f),
           (selectBest probe sections).2)) ∧
    (∀ (cfg : Config) (env : Env) (fs : FS) (rel : Release) (isec : DiskSection),
      findIncomingSection cfg rel = some isec →
      matchingArchiveSections cfg isec.sect = [] →
      manageArchiveRel cfg env fs rel = (false, fs, [])) := by
  refine ⟨?_, ?_, ?_, ?_⟩
  · intro probe sections s m h
    simp only [selectBest] at h
    rcases selectBestLoop_spec probe sections none 0 with ⟨heq, _⟩ |
      ⟨s1, pre, post, h1, h2, h3, h4, h5, h6⟩
    · rw [heq] at h
      exact absurd (congrArg Prod.fst h) (by simp)
    · rw [h] at h1 h3 h4 h5 h6
      simp only [Option.some.injEq] at h1
      subst h1
      exact ⟨pre, post, h2, h3, h4, h5, h6⟩
  · intro probe sections m h
    simp only [selectBest] at h
    rcases selectBestLoop_spec probe sections none 0 with ⟨heq, hle⟩ |
      ⟨s1, pre, post, h1, h2, h3, h4, h5, h6⟩
    · rw [heq] at h
      have hm : m = 0 := (congrArg Prod.snd h).symm
      exact ⟨hm, by simpa using hle⟩
    · rw [h] at h1
      exact absurd h1 (by simp)
  · intro probe sections f
    simpa [selectBest] using selectBestLoop_relabel probe f sections none 0
  · intro cfg env fs rel isec hsec hempty
    simp [manageArchiveRel, hsec, hempty]

/-- selection example: four sections on distinct devices, probes 5,
failure, 9, 9 -/
def probe7 : String → Option Int := fun d =>
  if d == "d1" then some 5 else if d == "d2" then none else some 9

/-- selection example sections -/
def sec71 : DiskSection := ⟨["p1"], "d1", "A", false⟩

/-- selection example sections -/
def sec72 : DiskSection := ⟨["p2"], "d2", "B", false⟩

/-- selection example sections -/
def sec73 : DiskSection := ⟨["p3"], "d3", "C", false⟩

/-- selection example sections -/
def sec74 : DiskSection := ⟨["p4"], "d4", "D", false⟩

/-- C7 witness: on the example the loop picks the third section (first to
attain the maximum 9, despite the tie with the fourth), characterized by
the selection theorem -/
theorem selectBest_spec_witness :
    ∃ pre post, [sec71, sec72, sec73, sec74] = pre ++ sec73 :: post ∧
      probe7 sec73.device = some 9 ∧ (0 : Int) < 9 ∧
      (∀ t ∈ pre, ∀ v, probe7 t.device = some v → v < 9) ∧
      (∀ t ∈ post, ∀ v, probe7 t.device = some v → v ≤ 9) :=
  selectBest_spec.1 probe7 [sec71, sec72, sec73, sec74] sec73 9 (by decide)

/-- core of the integrity-failure path: with debug off, a resolved
incoming section, a nonempty label match, a selected destination, a
passing capacity check and a completed copy, a failing file-count
verification makes `manageArchive` return `false` having performed
exactly the destination pre-wipe and the copy -/
theorem manageArchiveRel_verifyFail (cfg : Config) (env : Env) (fs : FS) (rel : Release)
    (isec best : DiskSection) (most : Int) (fs2 : FS)
    (hdbg : cfg.debug = false)
    (hsec : findIncomingSection cfg rel = some isec)
    (hmatch : matchingArchiveSections cfg isec.sect ≠ [])
    (hbest : selectBest (env.probe fs) cfg.archiveDisksSections = (some best, most))
    (hcap : ¬((most - cfg.archiveBufferGB) * 1024 < (rel.size : Int)))
    (hcopy : env.rclone (wipeDestination fs best.path rel.name) isec.path rel.name best.path
        = some fs2)
    (hver : verifyFileCount fs2 (isec.path ++ [rel.name]) (best.path ++ [rel.name]) = false) :
    manageArchiveRel cfg env fs rel =
      (false, fs2, [Act.wipe best.path rel.name, Act.copy isec.path rel.name best.path]) := by
  have hlen : ¬ ((matchingArchiveSections cfg isec.sect).length == 0) = true := by
    simp [List.length_eq_zero, hmatch]
  simp only [manageArchiveRel, hsec]
  rw [if_neg hlen]
  simp only [hbest]
  rw [if_neg hcap]
  simp only [hdbg, Bool.false_eq_true, if_false, hcopy, hver]

/-- C1: when a placement reaches the copy step and the post-copy
file-count verification fails, the call returns failure, the only
performed effects are the destination pre-wipe and the copy — in
particular no timestamp restoration happens — and, provided the copy tool
only adds nodes, every original node outside the destination subtree
(hence the whole source directory, which is distinct from the destination
being wiped) is still present in the final filesystem -/
theorem manageArchive_countMismatch (cfg : Config) (env : Env) (fs : FS) (rel : Release)
    (isec best : DiskSection) (most : Int) (fs2 : FS)
    (hdbg : cfg.debug = false)
    (hsec : findIncomingSection cfg rel = some isec)
    (hmatch : matchingArchiveSections cfg isec.sect ≠ [])
    (hbest : selectBest (env.probe fs) cfg.archiveDisksSections = (some best, most))
    (hcap : ¬((most - cfg.archiveBufferGB) * 1024 < (rel.size : Int)))
    (hcopy : env.rclone (wipeDestination fs best.path rel.name) isec.path rel.name best.path
        = some fs2)
    (hver : verifyFileCount fs2 (isec.path ++ [rel.name]) (best.path ++ [rel.name]) = false) :
    manageArchive cfg env fs (some rel) =
      some (false, fs2, [Act.wipe best.path rel.name,
        Act.copy isec.path rel.name best.path]) ∧
    (∀ p t, Act.setTs p t ∉ [Act.wipe best.path rel.name,
        Act.copy isec.path rel.name best.path]) ∧
    ((∀ x ∈ (wipeDestination fs best.path rel.name).nodes, x ∈ fs2.nodes) →
      ∀ n ∈ fs.nodes, ((best.path ++ [rel.name]).isPrefixOf n.path) = false →
        n ∈ fs2.nodes) := by
  refine ⟨?_, ?_, ?_⟩
  · exact congrArg some (manageArchiveRel_verifyFail cfg env fs rel isec best most fs2
      hdbg hsec hmatch hbest hcap hcopy hver)
  · intro p t hmem
    simp at hmem
  · intro hmono n hn hpre
    exact hmono n (by simp [wipeDestination, List.mem_filter, hn, hpre])

/-- placement example: one incoming section on device d1, one archive
section on device d2 -/
def iSecEx : DiskSection := ⟨["inc"], "d1", "X", false⟩

/-- placement example archive section -/
def aSecEx : DiskSection := ⟨["arch"], "d2", "X", false⟩

/-- placement example filesystem: the release r1 holds one file -/
def fsEx : FS :=
  ⟨[⟨["inc"], true, 0, 0⟩, ⟨["inc", "r1"], true, 0, 0⟩,
    ⟨["inc", "r1", "f"], false, 0, 77⟩, ⟨["arch"], true, 0, 0⟩]⟩

/-- placement example release, as the scanner would produce it -/
def relEx : Release := ⟨["inc", "r1"], "r1", 0, 77, "X"⟩

/-- placement example config: race limit 100 GB, buffer 1 GB, debug off -/
def cfgEx : Config := ⟨[iSecEx], [aSecEx], 100, 0, 1, false, true⟩

/-- placement example environment: d2 probes 100 GB, the copy tool
creates the destination directory but loses its contents -/
def envEx : Env :=
  ⟨fun _ d => if d == "d2" then some 100 else some 10,
   fun fs1 _ nm dst => some ⟨fs1.nodes ++ [⟨dst ++ [nm], true, 0, 0⟩]⟩, 0⟩

/-- the filesystem after the lossy example copy -/
def fsEx2 : FS := ⟨fsEx.nodes ++ [⟨["arch", "r1"], true, 0, 0⟩]⟩

/-- C1 witness: the lossy copy makes the shallow count differ (1 vs 0),
the call fails, only wipe+copy happened, and the source file and
directory are still present -/
theorem manageArchive_countMismatch_witness :
    manageArchive cfgEx envEx fsEx (some relEx) =
      some (false, fsEx2, [Act.wipe ["arch"] "r1", Act.copy ["inc"] "r1" ["arch"]]) ∧
    (∀ p t, Act.setTs p t ∉ [Act.wipe ["arch"] "r1", Act.copy ["inc"] "r1" ["arch"]]) ∧
    ((∀ x ∈ (wipeDestination fsEx ["arch"] "r1").nodes, x ∈ fsEx2.nodes) →
      ∀ n ∈ fsEx.nodes, ((["arch"] ++ ["r1"]).isPrefixOf n.path) = false →
        n ∈ fsEx2.nodes) :=
  manageArchive_countMismatch cfgEx envEx fsEx relEx iSecEx aSecEx 100 fsEx2
    rfl (by decide) (by decide) (by decide) (by decide) (by decide) (by decide)

/-- a 2 GiB release (one file of 2147483648 bytes) -/
def relBig : Release := ⟨["inc", "r1"], "r1", 0, 2147483648, "X"⟩

/-- filesystem holding the 2 GiB release -/
def fsBig : FS :=
  ⟨[⟨["inc"], true, 0, 0⟩, ⟨["inc", "r1"], true, 0, 0⟩,
    ⟨["inc", "r1", "f"], false, 0, 2147483648⟩, ⟨["arch"], true, 0, 0⟩]⟩

/-- config with a 10 GB archive buffer -/
def cfgBig : Config := ⟨[iSecEx], [aSecEx], 100, 0, 10, false, true⟩

/-- C2 (code bug): with 100 GB free on the selected archive device, a
2 GiB release and a 10 GB buffer the specified check
`free < sizeGB + buffer` passes (100 ≥ 2 + 10), so the transfer should be
attempted — yet the call returns failure with no effect at the
size-plus-buffer gate, because the code divides the byte size by 1024
only (treating KiB as GB: it compares 100 against 2097152 + 10) while its
own variable name `releaseSizeInGB` and log message promise GB -/
theorem manageArchive_sizeUnit_bug :
    manageArchive cfgBig envEx fsBig (some relBig) = some (false, fsBig, []) ∧
    ¬((100 : ℚ) < (relBig.size : ℚ) / 1024 / 1024 / 1024 + (cfgBig.archiveBufferGB : ℚ)) := by
  constructor
  · decide
  · simp only [relBig, cfgBig]
    norm_num

/-- C10: a readdir failure on either tree makes the file-count
verification return `false` rather than raise, and consequently a
placement whose post-copy state leaves either top level unreadable is
treated as an integrity failure: the call returns `false` having
performed only the destination pre-wipe and the copy, never the source
deletion -/
theorem verifyFileCount_error_false :
    (∀ (fs : FS) (source destination : List String),
      readdirFs fs source = none ∨ readdirFs fs destination = none →
      verifyFileCount fs source destination = false) ∧
    (∀ (cfg : Config) (env : Env) (fs : FS) (rel : Release) (isec best : DiskSection)
      (most : Int) (fs2 : FS),
      cfg.debug = false →
      findIncomingSection cfg rel = some isec →
      matchingArchiveSections cfg isec.sect ≠ [] →
      selectBest (env.probe fs) cfg.archiveDisksSections = (some best, most) →
      ¬((most - cfg.archiveBufferGB) * 1024 < (rel.size : Int)) →
      env.rclone (wipeDestination fs best.path rel.name) isec.path rel.name best.path
        = some fs2 →
      (readdirFs fs2 (isec.path ++ [rel.name]) = none ∨
        readdirFs fs2 (best.path ++ [rel.name]) = none) →
      manageArchiveRel cfg env fs rel =
        (false, fs2, [Act.wipe best.path rel.name,
          Act.copy isec.path rel.name best.path])) := by
  have herr : ∀ (fs : FS) (source destination : List String),
      readdirFs fs source = none ∨ readdirFs fs destination = none →
      verifyFileCount fs source destination = false := by
    intro fs source destination h
    rcases h with h | h
    · simp [verifyFileCount, h]
    · rcases hs : readdirFs fs source with _ | ls
      · simp [verifyFileCount, hs]
      · simp [verifyFileCount, hs, h]
  refine ⟨herr, ?_⟩
  intro cfg env fs rel isec best most fs2 hdbg hsec hmatch hbest hcap hcopy hrd
  exact manageArchiveRel_verifyFail cfg env fs rel isec best most fs2
    hdbg hsec hmatch hbest hcap hcopy (herr _ _ _ hrd)

/-- environment whose copy tool does nothing at all (the destination is
never created, so its top level cannot be read afterwards) -/
def envNoCopy : Env :=
  ⟨fun _ d => if d == "d2" then some 100 else some 10,
   fun fs1 _ _ _ => some fs1, 0⟩

/-- C10 witness: with the destination directory never created, the
verification reads `none` on the destination, returns `false`, and the
placement fails after wipe+copy with the source untouched -/
theorem verifyFileCount_error_false_witness :
    verifyFileCount fsEx (["inc"] ++ ["r1"]) (["arch"] ++ ["r1"]) = false ∧
    manageArchiveRel cfgEx envNoCopy fsEx relEx =
      (false, fsEx, [Act.wipe ["arch"] "r1", Act.copy ["inc"] "r1" ["arch"]]) :=
  ⟨verifyFileCount_error_false.1 fsEx _ _ (Or.inr (by decide)),
   verifyFileCount_error_false.2 cfgEx envNoCopy fsEx relEx iSecEx aSecEx 100 fsEx
     rfl (by decide) (by decide) (by decide) (by decide) (by decide) (Or.inr (by decide))⟩

/-- deleting a directory removes at least the directory node itself -/
theorem deleteDirectory_length {fs : FS} {p : List String} {fs2 : FS}
    (h : deleteDirectory fs p = some fs2) : fs2.nodes.length < fs.nodes.length := by
  unfold deleteDirectory at h
  rcases hrd : readdirFs fs p with _ | entries <;> rw [hrd] at h
  · exact Option.noConfusion h
  · have hfs2 : fs2 = ⟨fs.nodes.filter (fun n => !(p.isPrefixOf n.path))⟩ :=
      (Option.some.inj h).symm
    have hany : fs.nodes.any (fun n => n.path == p && n.isDir) = true := by
      by_contra hc
      simp only [readdirFs, Bool.not_eq_true] at hrd
      rw [if_neg (by simpa using hc)] at hrd
      exact Option.noConfusion hrd
    obtain ⟨n, hn, hpn⟩ := List.any_eq_true.mp hany
    rw [hfs2]
    refine List.length_filter_lt_length_iff_exists.mpr ⟨n, hn, ?_⟩
    have hpath : n.path = p := by
      have := (Bool.and_eq_true _ _).mp hpn
      exact eq_of_beq this.1
    simp [hpath, List.isPrefixOf_iff_prefix]

/-- with debug disabled, a continuing reclaim iteration has performed a
deletion: the filesystem strictly shrinks -/
theorem cleanupIter_cont_progress (cfg : Config) (env : Env) (device : String)
    (sects : List DiskSection) (fs : FS) (free : Int) (fs2 : FS) (free2 : Int)
    (tr : List Act) (fl : Bool)
    (hdbg : cfg.debug = false)
    (h : cleanupIter cfg env device sects fs free = IterRes.cont fs2 free2 tr fl) :
    fs2.nodes.length < fs.nodes.length := by
  unfold cleanupIter at h
  rcases hf : findOldestDirectory env.now fs sects with _ | r <;> rw [hf] at h
  · exact absurd h (by simp)
  · rw [hdbg] at h
    simp only [Bool.false_eq_true, if_false] at h
    rcases hdel : deleteDirectory fs r.path with _ | fsd <;> rw [hdel] at h <;>
      dsimp only at h
    · exact absurd h (by simp)
    · rcases hp : env.probe fsd device with _ | f2 <;> rw [hp] at h
      · exact absurd h (by simp)
      · have hfsd : fsd = fs2 := by
          injection h
        rw [← hfsd]
        exact deleteDirectory_length hdel

/-- archive section for the reclaim examples -/
def aSec8 : DiskSection := ⟨["arch"], "d8", "M", false⟩

/-- device with three archived releases (mtimes 1, 2, 3) -/
def fs8 : FS :=
  ⟨[⟨["arch"], true, 0, 0⟩, ⟨["arch", "r1"], true, 1, 0⟩,
    ⟨["arch", "r2"], true, 2, 0⟩, ⟨["arch", "r3"], true, 3, 0⟩]⟩

/-- reclaim example config, debug off, archive threshold 100 GB -/
def cfg8 : Config := ⟨[], [aSec8], 100, 100, 10, false, true⟩

/-- the same config with debug mode on -/
def cfgD : Config := ⟨[], [aSec8], 100, 100, 10, true, true⟩

/-- probe reporting 10 GB with three releases present, 60 GB after one
deletion, 110 GB after two -/
def env8 : Env :=
  ⟨fun fs _ => some (210 - 50 * (fs.nodes.length : Int)), fun f _ _ _ => some f, 0⟩

/-- the device after two reclaim deletions: the third release survives -/
def fs8final : FS := ⟨[⟨["arch"], true, 0, 0⟩, ⟨["arch", "r3"], true, 3, 0⟩]⟩

/-- C8 counterexample: in debug mode, with free space below the threshold
and a candidate release present, one loop iteration neither deletes a
release nor breaks — it continues with the identical state — so the
`while` loop repeats that state forever; accordingly the fuelled loop
exhausts any fuel (here 5, which exceeds the node count) without
terminating -/
theorem cleanup_debug_no_progress :
    (10 : Int) < cfgD.freeSpaceLimitGBArchive ∧
    cleanupIter cfgD env8 "d8" [aSec8] fs8 10 = IterRes.cont fs8 10 [] false ∧
    cleanupLoop cfgD env8 "d8" [aSec8] 5 fs8 10 false [] = none := by
  refine ⟨by decide, by decide, by decide⟩

/-- C8 amended: with debug disabled every continuing iteration of the
reclaim loop deletes exactly one release, so fuel exceeding the node
count always suffices: the loop terminates, stopping at the threshold or
when no candidate remains or on a caught error; on the concrete device
with three archived releases and a threshold reached after two deletions
it performs exactly two deletions (announce+delete pairs for r1 then r2)
and leaves the third release intact.  In debug mode it need not
terminate, per the counterexample -/
theorem cleanupLoop_terminates :
    (∀ (cfg : Config) (env : Env) (device : String) (sects : List DiskSection)
       (fs : FS) (free : Int) (flag : Bool) (acc : List Act),
      cfg.debug = false →
      ∃ out, cleanupLoop cfg env device sects (fs.nodes.length + 1) fs free flag acc
        = some out) ∧
    (cleanupLoop cfg8 env8 "d8" [aSec8] (fs8.nodes.length + 1) fs8 10 false [] =
      some (true, fs8final, [Act.announce "TDELA", Act.deleteDir ["arch", "r1"],
        Act.announce "TDELA", Act.deleteDir ["arch", "r2"]]) ∧
      (⟨["arch", "r3"], true, 3, 0⟩ : FsNode) ∈ fs8final.nodes) := by
  constructor
  · intro cfg env device sects
    suffices hgen : ∀ (fuel : Nat) (fs : FS), fs.nodes.length < fuel →
        ∀ (free : Int) (flag : Bool) (acc : List Act), cfg.debug = false →
        ∃ out, cleanupLoop cfg env device sects fuel fs free flag acc = some out by
      intro fs free flag acc hdbg
      exact hgen (fs.nodes.length + 1) fs (by omega) free flag acc hdbg
    intro fuel
    induction fuel with
    | zero => intro fs hlt; omega
    | succ fuel ih =>
      intro fs hlt free flag acc hdbg
      by_cases hfree : free < cfg.freeSpaceLimitGBArchive
      · rcases hiter : cleanupIter cfg env device sects fs free with ⟨fs2, tr, fl⟩ |
          ⟨fs2, free2, tr, fl⟩
        · exact ⟨(flag || fl, fs2, acc ++ tr), by simp [cleanupLoop, hfree, hiter]⟩
        · have hlt2 : fs2.nodes.length < fuel := by
            have := cleanupIter_cont_progress cfg env device sects fs free fs2 free2 tr fl
              hdbg hiter
            omega
          obtain ⟨out, hout⟩ := ih fs2 hlt2 free2 (flag || fl) (acc ++ tr) hdbg
          exact ⟨out, by simp [cleanupLoop, hfree, hiter, hout]⟩
      · exact ⟨(flag, fs, acc), by simp [cleanupLoop, hfree]⟩
  · exact ⟨by decide, by decide⟩

/-- C8 amended witness: the termination clause applied to the concrete
three-release device -/
theorem cleanupLoop_terminates_witness :
    ∃ out, cleanupLoop cfg8 env8 "d8" [aSec8] (fs8.nodes.length + 1) fs8 10 false []
      = some out :=
  cleanupLoop_terminates.1 cfg8 env8 "d8" [aSec8] fs8 10 false [] rfl

/-- C5 counterexample: on the three-release device the reclaimer performs
two deletions and reports `true`, yet the null-release `manageArchive`
call over the same state returns `false` after delegating — the
reclaimer's boolean is discarded, so the claimed equality of the returned
boolean with "cleanup was performed" fails -/
theorem manageArchive_null_discards_flag :
    manageArchiveDiskSpace cfg8 env8 fs8 =
      some (true, fs8final, [Act.announce "TDELA", Act.deleteDir ["arch", "r1"],
        Act.announce "TDELA", Act.deleteDir ["arch", "r2"]]) ∧
    manageArchive cfg8 env8 fs8 none =
      some (false, fs8final, [Act.announce "TDELA", Act.deleteDir ["arch", "r1"],
        Act.announce "TDELA", Act.deleteDir ["arch", "r2"]]) := by
  refine ⟨by decide, by decide⟩

/-- C5 amended: with no release, `manageArchive` delegates to the
capacity reclaimer (`manageArchiveSpace`, i.e. `manageArchiveDiskSpace`)
and then returns `false` unconditionally: the reclaimer's filesystem
effects and announcements are kept, but its cleanup flag is discarded
rather than returned -/
theorem manageArchive_null_returns_false (cfg : Config) (env : Env) (fs : FS)
    (out : Bool × FS × List Act)
    (h : manageArchiveDiskSpace cfg env fs = some out) :
    manageArchive cfg env fs none = some (false, out.2.1, out.2.2) := by
  simp [manageArchive, h]

/-- C5 amended witness: the delegation equality at the concrete
three-release device, where cleanup was in fact performed -/
theorem manageArchive_null_returns_false_witness :
    manageArchive cfg8 env8 fs8 none =
      some (false, fs8final, [Act.announce "TDELA", Act.deleteDir ["arch", "r1"],
        Act.announce "TDELA", Act.deleteDir ["arch", "r2"]]) :=
  manageArchive_null_returns_false cfg8 env8 fs8
    (true, fs8final, [Act.announce "TDELA", Act.deleteDir ["arch", "r1"],
      Act.announce "TDELA", Act.deleteDir ["arch", "r2"]]) (by decide)

/-- incoming example config: race limit 100 GB, buffer 10 GB, debug off -/
def cfg3 : Config := ⟨[iSecEx], [aSecEx], 100, 0, 10, false, true⟩

/-- incoming example filesystem: a single, empty release r1 -/
def fs3 : FS :=
  ⟨[⟨["inc"], true, 0, 0⟩, ⟨["inc", "r1"], true, 0, 0⟩, ⟨["arch"], true, 0, 0⟩]⟩

/-- the incoming example release as scanned -/
def rel3 : Release := ⟨["inc", "r1"], "r1", 0, 0, "X"⟩

/-- the filesystem after deleting the empty release -/
def fs3final : FS := ⟨[⟨["inc"], true, 0, 0⟩, ⟨["arch"], true, 0, 0⟩]⟩

/-- environment whose probes stay below the race threshold on d1 (10 GB)
and report 500 GB on the archive device d2; the copy tool is inert -/
def env3 : Env :=
  ⟨fun _ d => if d == "d2" then some 500 else some 10, fun f _ _ _ => some f, 0⟩

/-- environment under which deleting the empty release lifts d1 to the
threshold: 200 GB once at most two nodes remain, 10 GB before -/
def env3b : Env :=
  ⟨fun fs _ => some (if fs.nodes.length ≤ 2 then 200 else 10), fun f _ _ _ => some f, 0⟩

/-- C3 counterexample: the oldest release's directory is empty and gets
deleted, but free space stays below the threshold, so the call falls
through and continues with the very same (now absent) release: it
announces a migration and invokes the archive placement (whose wipe and
copy appear in the trace after the deletion) — the empty case is not
terminal.  The call does return `true` here, but a migration was
attempted afterwards, refuting the claimed conjunction -/
theorem manageIncoming_emptyDir_fallthrough :
    manageIncoming cfg3 env3 fs3 iSecEx =
      some (true, ⟨[⟨["inc"], true, 0, 0⟩, ⟨["arch"], true, 0, 0⟩]⟩,
        [Act.deleteDir ["inc", "r1"], Act.announce "TSM",
         Act.wipe ["arch"] "r1", Act.copy ["inc"] "r1" ["arch"]]) := by
  decide

/-- C3 amended: when the globally oldest release's directory is empty,
it is deleted (debug off); if the re-probed free space of the managed
section's device then reaches the race threshold, the call stops early
and returns `true` having performed exactly that one deletion — no
migration is attempted; otherwise execution falls through and continues
evaluating migration or deletion of the already-deleted release, per the
counterexample -/
theorem manageIncoming_emptyDir (cfg : Config) (env : Env) (fs : FS) (isec : DiskSection)
    (rel : Release) (fs1 : FS) (free0 free1 : Int)
    (hprobe0 : env.probe fs isec.device = some free0)
    (hlow : ¬ free0 ≥ cfg.freeSpaceLimitGBRace)
    (hfind : findOldestDirectory env.now fs cfg.incomingDisksSections = some rel)
    (hempty : isDirectoryEmpty fs rel.path = true)
    (hdbg : cfg.debug = false)
    (hdel : deleteDirectory fs rel.path = some fs1)
    (hprobe1 : env.probe fs1 isec.device = some free1)
    (hge : free1 ≥ cfg.freeSpaceLimitGBRace) :
    manageIncoming cfg env fs isec = some (true, fs1, [Act.deleteDir rel.path]) := by
  simp only [manageIncoming, hprobe0]
  rw [if_neg hlow]
  simp only [hfind, hempty, hdbg, Bool.false_eq_true, if_false, if_true, hdel, hprobe1]
  rw [if_pos hge]

/-- C3 amended witness: with the threshold reached after the deletion,
the call performs exactly the one deletion and returns `true` -/
theorem manageIncoming_emptyDir_witness :
    manageIncoming cfg3 env3b fs3 iSecEx = some (true, fs3final, [Act.deleteDir ["inc", "r1"]]) :=
  manageIncoming_emptyDir cfg3 env3b fs3 iSecEx rel3 fs3final 10 200
    (by decide) (by decide) (by decide) (by decide) rfl (by decide) (by decide) (by decide)

/-- dated section holding a 25-hour-old directory "abc" and a
23-hour-old directory "xyz" (at `now` = 90000000 ms) -/
def fsAge : FS :=
  ⟨[⟨["sec"], true, 0, 0⟩, ⟨["sec", "abc"], true, 0, 0⟩,
    ⟨["sec", "xyz"], true, 7200000, 0⟩]⟩

/-- C4 amended witness: in the dated section the 25-hour-old directory is
a candidate although its name is not numeric, and the 23-hour-old one is
not — both via the age-only characterization -/
theorem dated_scan_age_only_witness :
    (∃ r ∈ sectionCandidates 90000000 fsAge secDated, r.path = ["sec"] ++ ["abc"]) ∧
    ¬(∃ r ∈ sectionCandidates 90000000 fsAge secDated, r.path = ["sec"] ++ ["xyz"]) :=
  ⟨(dated_scan_age_only 90000000 fsAge secDated [⟨"abc", true⟩, ⟨"xyz", true⟩]
      ⟨"abc", true⟩ 0 rfl (by decide) (by decide) rfl (by decide)).mpr (by decide),
   fun hex => absurd ((dated_scan_age_only 90000000 fsAge secDated
      [⟨"abc", true⟩, ⟨"xyz", true⟩] ⟨"xyz", true⟩ 7200000
      rfl (by decide) (by decide) rfl (by decide)).mp hex) (by decide)⟩
